import Mathlib

/-!
Verification of the Memorify photo-sharing application's storage layer and
route handlers (`server/database-storage.ts`, `server/routes.ts`,
`shared/schema.ts`) against its specification.

The SQLite database is shallowly embedded as a `Store` of row lists, one per
table.  Timestamps are epoch milliseconds (`Nat`, as produced by `Date.now()`
on insertion).  Nullable integer columns are `Option Nat`.  Auto-increment id
assignment is modelled by per-table `next…Id` sequence counters in the store,
and `defaultNow()` column defaults read the store clock `now`.  SQL `WHERE`
comparisons involving `NULL` follow three-valued logic: a comparison with an
unknown result does not match, which the `sqlEqOpt` / `sqlNeOpt` / `sqlInList`
helpers encode.  The server is modelled as running in the UTC timezone, so
`new Date(year, month, day)` denotes the UTC first instant of that civil date.
-/

namespace Memorify

/-- Row of the `users` table (`shared/schema.ts`). -/
structure User where
  id : Nat
  username : String
  password : String
  createdAt : Nat
deriving DecidableEq

/-- Row of the `images` table. -/
structure Image where
  id : Nat
  userId : Nat
  path : String
  description : Option String
  uploadedAt : Nat
deriving DecidableEq

/-- Row of the `friends` table; `status` is the TEXT column holding
`"pending" | "accepted" | "declined"`. -/
structure Friend where
  id : Nat
  requesterId : Nat
  addresseeId : Nat
  status : String
  createdAt : Nat
deriving DecidableEq

/-- Row of the `groups` table. -/
structure Group where
  id : Nat
  name : String
  description : Option String
  createdBy : Nat
  createdAt : Nat
deriving DecidableEq

/-- Row of the `group_members` table. -/
structure GroupMember where
  id : Nat
  groupId : Nat
  userId : Nat
  joinedAt : Nat
deriving DecidableEq

/-- Row of the `image_shares` table; `userId` and `groupId` are nullable. -/
structure ImageShare where
  id : Nat
  imageId : Nat
  userId : Option Nat
  groupId : Option Nat
  sharedAt : Nat
deriving DecidableEq

/-- Row of the `notifications` table; `type` is the TEXT column holding
`"friend_request" | "group_invite" | "image_share"`. -/
structure Notification where
  id : Nat
  userId : Nat
  type : String
  content : String
  senderId : Option Nat
  groupId : Option Nat
  imageId : Option Nat
  isRead : Bool
  createdAt : Nat
deriving DecidableEq

/-- The SQLite database: one row list per table, auto-increment sequences for
the tables the modelled operations insert into, and the current clock used
for `defaultNow()` timestamp defaults. -/
structure Store where
  users : List User
  images : List Image
  friends : List Friend
  groups : List Group
  groupMembers : List GroupMember
  imageShares : List ImageShare
  notifications : List Notification
  nextFriendId : Nat
  nextShareId : Nat
  nextNotificationId : Nat
  now : Nat
deriving DecidableEq

/-- SQL `col = value` under three-valued logic: a comparison involving `NULL`
is unknown, and a `WHERE` clause treats unknown as no match. -/
def sqlEqOpt : Option Nat → Option Nat → Bool
  | some x, some y => x == y
  | _, _ => false

/-- SQL `col <> value` under three-valued logic (never true when either side
is `NULL`; in particular drizzle's `ne(col, null)` matches no row). -/
def sqlNeOpt : Option Nat → Option Nat → Bool
  | some x, some y => x != y
  | _, _ => false

/-- SQL `col IN (list)` under three-valued logic: a `NULL` column value never
matches. -/
def sqlInList : Option Nat → List Nat → Bool
  | some x, l => l.contains x
  | none, _ => false

/-- JavaScript's `Array.prototype.filter(Boolean)` over an array of nullable
numbers: drops `null` and the falsy number `0`. -/
def jsFilterTruthy (l : List (Option Nat)) : List Nat :=
  l.filterMap fun v =>
    match v with
    | some n => if n == 0 then none else some n
    | none => none

/-- `DatabaseStorage.getUser`: `select … where users.id = id limit 1`. -/
def getUser (s : Store) (id : Nat) : Option User :=
  s.users.find? fun u => u.id == id

/-- `DatabaseStorage.getImage`: `select … where images.id = id limit 1`. -/
def getImage (s : Store) (id : Nat) : Option Image :=
  s.images.find? fun i => i.id == id

/-- `DatabaseStorage.getGroup`: returns the row or throws
`Error("Group not found")`. -/
def getGroupE (s : Store) (id : Nat) : Except String Group :=
  match s.groups.find? (fun g => g.id == id) with
  | some g => Except.ok g
  | none => Except.error "Group not found"

/-- `storage.getGroup(id).catch(() => undefined)` as used by the view
assemblers: the thrown error is converted into an absent value. -/
def getGroupCaught (s : Store) (id : Nat) : Option Group :=
  (getGroupE s id).toOption

/-- `DatabaseStorage.getGroupMembers`: collect the member user ids of the
group, then (when non-empty) select the users whose id is in that list. -/
def getGroupMembers (s : Store) (groupId : Nat) : List User :=
  let userIds := (s.groupMembers.filter fun m => m.groupId == groupId).map (·.userId)
  if userIds.length == 0 then []
  else s.users.filter fun u => userIds.contains u.id

/-- `DatabaseStorage.isGroupMember`. -/
def isGroupMember (s : Store) (groupId userId : Nat) : Bool :=
  s.groupMembers.any fun m => m.groupId == groupId && m.userId == userId

/-- `DatabaseStorage.userHasImageAccess`: owner check, then direct-share
check, then shared-with-a-group-the-user-belongs-to check. -/
def userHasImageAccess (s : Store) (userId imageId : Nat) : Bool :=
  if s.images.any (fun i => i.id == imageId && i.userId == userId) then true
  else if s.imageShares.any (fun sh => sh.imageId == imageId && sqlEqOpt sh.userId (some userId)) then true
  else
    let userGroupIds := (s.groupMembers.filter fun m => m.userId == userId).map (·.groupId)
    if userGroupIds.length == 0 then false
    else s.imageShares.any fun sh => sh.imageId == imageId && sqlInList sh.groupId userGroupIds

/-- `DatabaseStorage.getFriendship`: `limit 1` over rows matching the pair in
either orientation. -/
def getFriendship (s : Store) (requesterId addresseeId : Nat) : Option Friend :=
  s.friends.find? fun f =>
    (f.requesterId == requesterId && f.addresseeId == addresseeId) ||
    (f.requesterId == addresseeId && f.addresseeId == requesterId)

/-- `DatabaseStorage.getFriendRequest`: lookup by primary key. -/
def getFriendRequest (s : Store) (id : Nat) : Option Friend :=
  s.friends.find? fun f => f.id == id

/-- `DatabaseStorage.createFriend`: insert with `status: "pending"` and
auto-assigned id / `createdAt`. -/
def createFriend (s : Store) (requesterId addresseeId : Nat) : Friend × Store :=
  let f : Friend :=
    { id := s.nextFriendId, requesterId := requesterId, addresseeId := addresseeId
      status := "pending", createdAt := s.now }
  (f, { s with friends := s.friends ++ [f], nextFriendId := s.nextFriendId + 1 })

/-- `DatabaseStorage.updateFriendRequest`: `update friends set status where
id = id`. -/
def updateFriendRequest (s : Store) (id : Nat) (status : String) : Store :=
  { s with friends := s.friends.map fun f => if f.id == id then { f with status := status } else f }

/-- The data of an `InsertNotification` (`insertNotificationSchema`). -/
structure InsertNotification where
  userId : Nat
  type : String
  content : String
  senderId : Option Nat
  groupId : Option Nat
  imageId : Option Nat
deriving DecidableEq

/-- `DatabaseStorage.createNotification`: insert with `isRead: false` and
auto-assigned id / `createdAt`. -/
def createNotification (s : Store) (n : InsertNotification) : Store :=
  let row : Notification :=
    { id := s.nextNotificationId, userId := n.userId, type := n.type, content := n.content
      senderId := n.senderId, groupId := n.groupId, imageId := n.imageId
      isRead := false, createdAt := s.now }
  { s with notifications := s.notifications ++ [row]
           nextNotificationId := s.nextNotificationId + 1 }

/-- `DatabaseStorage.shareImage`: insert an `image_shares` row. -/
def shareImage (s : Store) (imageId : Nat) (userId groupId : Option Nat) : Store :=
  let row : ImageShare :=
    { id := s.nextShareId, imageId := imageId, userId := userId, groupId := groupId
      sharedAt := s.now }
  { s with imageShares := s.imageShares ++ [row], nextShareId := s.nextShareId + 1 }

/-- `DatabaseStorage.deleteImage`, first statement: delete the image's
`image_shares` rows. -/
def deleteImageSharesOf (s : Store) (id : Nat) : Store :=
  { s with imageShares := s.imageShares.filter fun sh => !(sh.imageId == id) }

/-- `DatabaseStorage.deleteImage`, second statement: delete the notifications
whose `imageId` references the image. -/
def deleteImageNotificationsOf (s : Store) (id : Nat) : Store :=
  { s with notifications := s.notifications.filter fun n => !(sqlEqOpt n.imageId (some id)) }

/-- `DatabaseStorage.deleteImage`, third statement: delete the image row. -/
def deleteImageRow (s : Store) (id : Nat) : Store :=
  { s with images := s.images.filter fun i => !(i.id == id) }

/-- `DatabaseStorage.deleteImage`: shares, then notifications, then the image
row, in that order. -/
def deleteImage (s : Store) (id : Nat) : Store :=
  deleteImageRow (deleteImageNotificationsOf (deleteImageSharesOf s id) id) id

/-- Proleptic-Gregorian civil date `(year, month 1-12, day 1-31)` of a
(nonnegative) day count since 1970-01-01, as computed by SQLite's
`datetime(…, 'unixepoch')` / `strftime` for dates in its supported range.
Standard era-based conversion (days are shifted to the 0000-03-01 epoch,
719468 days before 1970-01-01, so all arithmetic stays in `Nat`). -/
def civilFromDays (days : Nat) : Nat × Nat × Nat :=
  let z := days + 719468
  let era := z / 146097
  let doe := z % 146097
  let yoe := (doe - doe / 1460 + doe / 36524 - doe / 146096) / 365
  let y := yoe + era * 400
  let doy := doe - (365 * yoe + yoe / 4 - yoe / 100)
  let mp := (5 * doy + 2) / 153
  let d := doy - (153 * mp + 2) / 5 + 1
  let m := if mp < 10 then mp + 3 else mp - 9
  (if m ≤ 2 then y + 1 else y, m, d)

/-- The `(year, month 1-12)` pair that `strftime('%Y', …)` /
`strftime('%m', …)` extract from an epoch-millisecond timestamp: the SQL
first truncates to seconds (`uploadedAt / 1000` with integer division), and
`datetime(…, 'unixepoch')` then buckets seconds into UTC civil days. -/
def ymOfMs (ts : Nat) : Nat × Nat :=
  let c := civilFromDays (ts / 1000 / 86400)
  (c.1, c.2.1)

/-- Day count since 1970-01-01 (UTC) of the civil date `(y, m 1-12, d)`, the
inverse era-based conversion; valid for `y ≥ 1970` (earlier dates would be
negative and are truncated by `Nat` subtraction). -/
def daysFromCivil (y m d : Nat) : Nat :=
  let yAdj := if m ≤ 2 then y - 1 else y
  let era := yAdj / 400
  let yoe := yAdj % 400
  let doy := (153 * (if 3 ≤ m then m - 3 else m + 9) + 2) / 5 + d - 1
  era * 146097 + yoe * 365 + yoe / 4 - yoe / 100 + doy - 719468

/-- Epoch milliseconds of JavaScript `new Date(year, month, 1)` with the
server in UTC: the zero-indexed `month` argument is normalized by rolling
excess months into the year (so `new Date(y, 12, 1)` is January of `y+1`). -/
def jsMonthStartMs (y m : Nat) : Nat :=
  daysFromCivil (y + m / 12) (m % 12 + 1) 1 * 86400000

/-- Sort comparator for `orderBy(desc(images.uploadedAt))`: newer first. -/
def newerFirst (a b : Image) : Prop := b.uploadedAt ≤ a.uploadedAt

instance : DecidableRel newerFirst := fun a b => Nat.decLe b.uploadedAt a.uploadedAt

instance : IsTotal Image newerFirst := ⟨fun a b => Nat.le_total b.uploadedAt a.uploadedAt⟩

instance : IsTrans Image newerFirst := ⟨fun _ _ _ h h' => Nat.le_trans h' h⟩

/-- `DatabaseStorage.getUserImagesByDate`: JavaScript builds
`monthStart = new Date(year, month, 1)` and
`monthEnd = new Date(year, month + 1, 0, 23, 59, 59, 999)` (the last
millisecond of the month, i.e. one millisecond before the next month's first
instant), and the SQL compares `datetime(uploadedAt / 1000, 'unixepoch')`
against the two bounds at second granularity — a closed interval on
second-truncated timestamps. -/
def getUserImagesByDate (s : Store) (userId year month : Nat) : List Image :=
  let monthStartMs := jsMonthStartMs year month
  let monthEndMs := jsMonthStartMs year (month + 1) - 1
  List.insertionSort newerFirst
    (s.images.filter fun i =>
      i.userId == userId &&
      decide (monthStartMs / 1000 ≤ i.uploadedAt / 1000) &&
      decide (i.uploadedAt / 1000 ≤ monthEndMs / 1000))

/-- Sort comparator for `orderBy(desc(strftime('%Y-%m', …)))`: the grouped
`'YYYY-MM'` keys (zero-padded, fixed width within SQLite's date range) sort
as text exactly like `(year, month)` pairs compare lexicographically, larger
first. -/
def ymDesc (a b : Nat × Nat) : Prop := b.1 < a.1 ∨ (a.1 = b.1 ∧ b.2 ≤ a.2)

instance : DecidableRel ymDesc := fun a b =>
  inferInstanceAs (Decidable (b.1 < a.1 ∨ (a.1 = b.1 ∧ b.2 ≤ a.2)))

instance : IsTotal (Nat × Nat) ymDesc :=
  ⟨fun a b => by
    rcases Nat.lt_trichotomy a.1 b.1 with h | h | h
    · exact Or.inr (Or.inl h)
    · rcases Nat.le_total b.2 a.2 with h2 | h2
      · exact Or.inl (Or.inr ⟨h, h2⟩)
      · exact Or.inr (Or.inr ⟨h.symm, h2⟩)
    · exact Or.inl (Or.inl h)⟩

instance : IsTrans (Nat × Nat) ymDesc :=
  ⟨fun a b c hab hbc => by
    rcases hab with h | ⟨he, h2⟩
    · rcases hbc with h' | ⟨he', _⟩
      · exact Or.inl (Nat.lt_trans h' h)
      · exact Or.inl (he' ▸ h)
    · rcases hbc with h' | ⟨he', h2'⟩
      · exact Or.inl (he ▸ h')
      · exact Or.inr ⟨he.trans he', Nat.le_trans h2' h2⟩⟩

/-- `DatabaseStorage.getUserImageDates`: group the user's images by their
`strftime('%Y-%m')` key (one row per distinct `(year, month 1-12)` pair),
order the keys descending, and map each to
`{ year, month: parseInt(month) - 1 }` (zero-indexed month). -/
def getUserImageDates (s : Store) (userId : Nat) : List (Nat × Nat) :=
  let keys := ((s.images.filter fun i => i.userId == userId).map
    fun i => ymOfMs i.uploadedAt).dedup
  (List.insertionSort ymDesc keys).map fun p => (p.1, p.2 - 1)

/-- The composite `ImageWithShares` response shape (`shared/schema.ts`):
the image row spread together with `shares: { users, groups }`. -/
structure ImageWithShares where
  image : Image
  shareUsers : List User
  shareGroups : List Group
deriving DecidableEq

/-- `DatabaseStorage.getImageWithShares`: resolve the image, select its
share rows with a non-`NULL` `userId` (resp. `groupId`) — note the drizzle
`ne(col, null)` condition is SQL `col <> NULL`, which matches no row — map
out the foreign keys, `.filter(Boolean)` them, and resolve to full rows
(skipping the `inArray` query when the id list is empty). -/
def getImageWithShares (s : Store) (imageId : Nat) : Option ImageWithShares :=
  match getImage s imageId with
  | none => none
  | some image =>
    let userShares := s.imageShares.filter fun sh =>
      sh.imageId == imageId && sqlNeOpt sh.userId none
    let userIds := jsFilterTruthy (userShares.map (·.userId))
    let groupShares := s.imageShares.filter fun sh =>
      sh.imageId == imageId && sqlNeOpt sh.groupId none
    let groupIds := jsFilterTruthy (groupShares.map (·.groupId))
    let sharedUsers := if userIds.length != 0 then s.users.filter (fun u => userIds.contains u.id) else []
    let sharedGroups := if groupIds.length != 0 then s.groups.filter (fun g => groupIds.contains g.id) else []
    some { image := image, shareUsers := sharedUsers, shareGroups := sharedGroups }

/-- The composite `NotificationWithDetails` response shape: the notification
row together with optionally attached `sender` / `group` / `image`. -/
structure NotificationWithDetails where
  notification : Notification
  sender : Option User
  group : Option Group
  image : Option Image
deriving DecidableEq

/-- Sort comparator for `orderBy(desc(notifications.createdAt))`. -/
def newerNotifFirst (a b : Notification) : Prop := b.createdAt ≤ a.createdAt

instance : DecidableRel newerNotifFirst := fun a b => Nat.decLe b.createdAt a.createdAt

instance : IsTotal Notification newerNotifFirst := ⟨fun a b => Nat.le_total b.createdAt a.createdAt⟩

instance : IsTrans Notification newerNotifFirst := ⟨fun _ _ _ h h' => Nat.le_trans h' h⟩

/-- JavaScript truthiness guard `if (notification.senderId) { … }` over a
nullable id: runs the lookup only for a non-`null`, nonzero id. -/
def lookupIfTruthy {β : Type} (v : Option Nat) (f : Nat → Option β) : Option β :=
  match v with
  | some n => if n == 0 then none else f n
  | none => none

/-- `DatabaseStorage.getUserNotifications`: the user's notifications newest
first, each opportunistically decorated with its sender, group (with the
`getGroup` error caught to `undefined`), and image. -/
def getUserNotifications (s : Store) (userId : Nat) : List NotificationWithDetails :=
  (List.insertionSort newerNotifFirst
    (s.notifications.filter fun n => n.userId == userId)).map fun n =>
    { notification := n
      sender := lookupIfTruthy n.senderId fun sid => getUser s sid
      group := lookupIfTruthy n.groupId fun gid => getGroupCaught s gid
      image := lookupIfTruthy n.imageId fun iid => getImage s iid }

/-- `POST /api/friends/request` (`server/routes.ts`): 400 on a self-request,
400 when `getFriendship` finds an existing row for the pair in either
orientation (any status), otherwise insert the pending friendship, notify
the addressee, and answer 201. -/
def sendFriendRequest (s : Store) (requesterId : Nat) (requesterName : String)
    (addresseeId : Nat) : Nat × Store :=
  if requesterId == addresseeId then (400, s)
  else
    match getFriendship s requesterId addresseeId with
    | some _ => (400, s)
    | none =>
      let (_, s1) := createFriend s requesterId addresseeId
      let s2 := createNotification s1
        { userId := addresseeId, type := "friend_request"
          content := requesterName ++ " sent you a friend request"
          senderId := some requesterId, groupId := none, imageId := none }
      (201, s2)

/-- `PUT /api/friends/requests/:id` (`server/routes.ts`): 400 unless the
submitted status is `accepted`/`declined`, 404 when the row is missing, 403
when the caller is not the addressee, otherwise update the row's status
(whatever its current value), notify the requester, and answer 200. -/
def respondFriendRequest (s : Store) (callerId : Nat) (callerName : String)
    (requestId : Nat) (status : String) : Nat × Store :=
  if status != "accepted" && status != "declined" then (400, s)
  else
    match getFriendRequest s requestId with
    | none => (404, s)
    | some request =>
      if request.addresseeId != callerId then (403, s)
      else
        let s1 := updateFriendRequest s requestId status
        let s2 := createNotification s1
          { userId := request.requesterId, type := "friend_request"
            content := if status == "accepted"
              then callerName ++ " accepted your friend request"
              else callerName ++ " declined your friend request"
            senderId := some callerId, groupId := none, imageId := none }
        (200, s2)

/-- The member-notification loop body of the group-share branch of
`POST /api/images`: each member other than the uploader gets one
`image_share` notification. -/
def notifyGroupMembers (members : List User) (uploaderId : Nat)
    (uploaderName : String) (imageId groupId : Nat) (groupName : String)
    (s : Store) : Store :=
  members.foldl (fun acc member =>
    if member.id != uploaderId then
      createNotification acc
        { userId := member.id, type := "image_share"
          content := uploaderName ++ " shared an image in " ++ groupName
          senderId := some uploaderId, imageId := some imageId
          groupId := some groupId }
    else acc) s

/-- One iteration of the group-share loop of `POST /api/images`
(`server/routes.ts`): insert the `image_shares` row, fetch the group's
members and the group (whose absence throws, caught by the route's handler
as a 500), then notify every member except the uploader. -/
def shareImageWithGroup (s : Store) (uploaderId : Nat) (uploaderName : String)
    (imageId groupId : Nat) : Except String Store :=
  let s1 := shareImage s imageId none (some groupId)
  let members := getGroupMembers s1 groupId
  match getGroupE s1 groupId with
  | Except.error e => Except.error e
  | Except.ok group =>
    Except.ok (notifyGroupMembers members uploaderId uploaderName imageId groupId group.name s1)

/-- A small concrete database used to instantiate the theorems: three users,
one image owned by alice (January 2023), an already-accepted friendship from
alice to bob, one group containing alice and bob, no image shares, and two
notifications (the second with dangling sender/group/image references). -/
def storeA : Store :=
  { users :=
      [ { id := 1, username := "alice", password := "pw", createdAt := 0 }
      , { id := 2, username := "bob", password := "pw", createdAt := 0 }
      , { id := 3, username := "carol", password := "pw", createdAt := 0 } ]
    images :=
      [ { id := 1, userId := 1, path := "/uploads/a.jpg", description := none
          uploadedAt := 1672531200000 } ]
    friends :=
      [ { id := 1, requesterId := 1, addresseeId := 2, status := "accepted", createdAt := 0 } ]
    groups :=
      [ { id := 1, name := "hikers", description := none, createdBy := 1, createdAt := 0 } ]
    groupMembers :=
      [ { id := 1, groupId := 1, userId := 1, joinedAt := 0 }
      , { id := 2, groupId := 1, userId := 2, joinedAt := 0 } ]
    imageShares := []
    notifications :=
      [ { id := 1, userId := 2, type := "friend_request", content := "alice sent you a friend request"
          senderId := some 1, groupId := none, imageId := none, isRead := false, createdAt := 5 }
      , { id := 2, userId := 1, type := "group_invite", content := "stale"
          senderId := some 9, groupId := some 99, imageId := some 77, isRead := false, createdAt := 3 } ]
    nextFriendId := 2
    nextShareId := 1
    nextNotificationId := 3
    now := 1000 }

/-! ### Helper lemmas -/

theorem find?_ext {α : Type} (p q : α → Bool) (h : ∀ a, p a = q a) :
    ∀ l : List α, l.find? p = l.find? q
  | [] => rfl
  | a :: l => by
    simp only [List.find?, h a]
    cases q a
    · exact find?_ext p q h l
    · rfl

theorem sqlEqOpt_some_iff (v : Option Nat) (y : Nat) :
    sqlEqOpt v (some y) = true ↔ v = some y := by
  cases v <;> simp [sqlEqOpt]

theorem sqlNeOpt_none (v : Option Nat) : sqlNeOpt v none = false := by
  cases v <;> rfl

theorem sqlInList_eq_true_iff (v : Option Nat) (l : List Nat) :
    sqlInList v l = true ↔ ∃ x, v = some x ∧ x ∈ l := by
  cases v <;> simp [sqlInList]

/-! ### C10: `getFriendship` is symmetric in its two arguments -/

/-- C10: for every store state and pair of user ids, `getFriendship(a, b)`
and `getFriendship(b, a)` return the same result — the unordered-pair lookup
matches a row in either `(requesterId, addresseeId)` orientation, so
duplicate detection is independent of request direction. -/
theorem getFriendship_symmetric (s : Store) (a b : Nat) :
    getFriendship s a b = getFriendship s b a := by
  unfold getFriendship
  exact find?_ext _ _ (fun f => Bool.or_comm _ _) s.friends

/-! ### C3: `deleteImage` removes dependents, then the image row -/

/-- C3: after `deleteImage(id)` no `image_shares` row and no `notifications`
row referencing the image remains and the image row itself is gone; moreover
after the first two delete statements (shares, then notifications) the
`images` table is still untouched, so the dependents are removed before the
image row. -/
theorem deleteImage_cascades (s : Store) (id : Nat) :
    (∀ sh ∈ (deleteImage s id).imageShares, sh.imageId ≠ id) ∧
    (∀ n ∈ (deleteImage s id).notifications, n.imageId ≠ some id) ∧
    (∀ i ∈ (deleteImage s id).images, i.id ≠ id) ∧
    (deleteImageNotificationsOf (deleteImageSharesOf s id) id).images = s.images := by
  refine ⟨?_, ?_, ?_, rfl⟩
  · intro sh hsh
    have := (List.mem_filter.mp hsh).2
    simpa using this
  · intro n hn
    have := (List.mem_filter.mp hn).2
    rcases hv : n.imageId with _ | v <;> simp [hv, sqlEqOpt] at this ⊢
    exact fun hvi => this (by simpa using hvi)
  · intro i hi
    have := (List.mem_filter.mp hi).2
    simpa using this

/-- Witness for C3 at a concrete store and image id. -/
theorem deleteImage_cascades_witness :
    (∀ sh ∈ (deleteImage storeA 1).imageShares, sh.imageId ≠ 1) ∧
    (∀ n ∈ (deleteImage storeA 1).notifications, n.imageId ≠ some 1) ∧
    (∀ i ∈ (deleteImage storeA 1).images, i.id ≠ 1) ∧
    (deleteImageNotificationsOf (deleteImageSharesOf storeA 1) 1).images = storeA.images :=
  deleteImage_cascades storeA 1

/-! ### C8: an image with zero shares yields present, empty share sets -/

/-- C8: for an existing image with no `image_shares` rows,
`getImageWithShares` returns the composite whose `shares.users` and
`shares.groups` are both present and empty, and whose remaining fields are
exactly the underlying image row. -/
theorem getImageWithShares_empty (s : Store) (i : Nat) (img : Image)
    (himg : getImage s i = some img)
    (hnoshares : ∀ sh ∈ s.imageShares, sh.imageId ≠ i) :
    getImageWithShares s i = some { image := img, shareUsers := [], shareGroups := [] } := by
  unfold getImageWithShares
  rw [himg]
  have h1 : (s.imageShares.filter fun sh => sh.imageId == i && sqlNeOpt sh.userId none) = [] := by
    refine List.filter_eq_nil_iff.mpr fun sh _ => ?_
    simp [sqlNeOpt_none]
  have h2 : (s.imageShares.filter fun sh => sh.imageId == i && sqlNeOpt sh.groupId none) = [] := by
    refine List.filter_eq_nil_iff.mpr fun sh _ => ?_
    simp [sqlNeOpt_none]
  simp [h1, h2, jsFilterTruthy]

/-- Witness for C8: the concrete store's image 1 has zero shares. -/
theorem getImageWithShares_empty_witness :
    getImageWithShares storeA 1 = some
      { image := { id := 1, userId := 1, path := "/uploads/a.jpg", description := none
                   uploadedAt := 1672531200000 }
        shareUsers := [], shareGroups := [] } :=
  getImageWithShares_empty storeA 1 _ (by decide) (by simp [storeA])

/-! ### C1: `userHasImageAccess` is the three-disjunct access predicate -/

theorem owner_any_iff (s : Store) (u i : Nat) :
    (s.images.any fun r => r.id == i && r.userId == u) = true ↔
      ∃ img ∈ s.images, img.id = i ∧ img.userId = u := by
  simp [List.any_eq_true]

theorem direct_share_any_iff (s : Store) (u i : Nat) :
    (s.imageShares.any fun sh => sh.imageId == i && sqlEqOpt sh.userId (some u)) = true ↔
      ∃ sh ∈ s.imageShares, sh.imageId = i ∧ sh.userId = some u := by
  simp [List.any_eq_true, sqlEqOpt_some_iff]

theorem group_share_any_iff (s : Store) (u i : Nat) :
    (s.imageShares.any fun sh => sh.imageId == i &&
        sqlInList sh.groupId ((s.groupMembers.filter fun m => m.userId == u).map (·.groupId))) = true ↔
      ∃ sh ∈ s.imageShares, sh.imageId = i ∧
        ∃ m ∈ s.groupMembers, m.userId = u ∧ sh.groupId = some m.groupId := by
  simp only [List.any_eq_true, Bool.and_eq_true, beq_iff_eq, sqlInList_eq_true_iff,
    List.mem_map, List.mem_filter]
  constructor
  · rintro ⟨sh, hsh, hi, x, hx, m, ⟨hm, hmu⟩, hmg⟩
    exact ⟨sh, hsh, hi, m, hm, by simpa using hmu, by rw [hx, hmg]⟩
  · rintro ⟨sh, hsh, hi, m, hm, hmu, hmg⟩
    exact ⟨sh, hsh, hi, m.groupId, hmg, m, ⟨hm, by simpa using hmu⟩, rfl⟩

/-- C1: `userHasImageAccess(u, i)` is true if and only if u owns the image,
or an `image_shares` row for the image names u directly, or an
`image_shares` row for the image names a group of which u is a member via a
`group_members` row; it is false when none of the three holds. -/
theorem userHasImageAccess_iff (s : Store) (u i : Nat) :
    userHasImageAccess s u i = true ↔
      ((∃ img ∈ s.images, img.id = i ∧ img.userId = u) ∨
       (∃ sh ∈ s.imageShares, sh.imageId = i ∧ sh.userId = some u) ∨
       (∃ sh ∈ s.imageShares, sh.imageId = i ∧
          ∃ m ∈ s.groupMembers, m.userId = u ∧ sh.groupId = some m.groupId)) := by
  unfold userHasImageAccess
  split_ifs with h1 h2
  · simpa using Or.inl ((owner_any_iff s u i).mp h1)
  · simpa using Or.inr (Or.inl ((direct_share_any_iff s u i).mp h2))
  · by_cases hfe : (s.groupMembers.filter fun m => m.userId == u) = []
    · rw [hfe]
      simp only [List.map_nil, List.length_nil, beq_self_eq_true, if_true,
        Bool.false_eq_true, false_iff]
      rintro (h | h | h)
      · exact h1 ((owner_any_iff s u i).mpr h)
      · exact h2 ((direct_share_any_iff s u i).mpr h)
      · rcases h with ⟨sh, hsh, hid, m, hm, hmu, hmg⟩
        have hmem : m ∈ s.groupMembers.filter fun m' => m'.userId == u :=
          List.mem_filter.mpr ⟨hm, by simpa using hmu⟩
        rw [hfe] at hmem
        exact absurd hmem (List.not_mem_nil m)
    · have hlen : (((s.groupMembers.filter fun m => m.userId == u).map (·.groupId)).length == 0) = false := by
        simp only [beq_eq_false_iff_ne, ne_eq, List.length_eq_zero, List.map_eq_nil_iff]
        exact hfe
      simp only [hlen, Bool.false_eq_true, if_false]
      rw [group_share_any_iff s u i]
      constructor
      · exact fun h => Or.inr (Or.inr h)
      · rintro (h | h | h)
        · exact absurd ((owner_any_iff s u i).mpr h) h1
        · exact absurd ((direct_share_any_iff s u i).mpr h) h2
        · exact h

/-! ### C2: friend-request status transitions -/

/-- Counterexample to C2: in the concrete store the friendship row 1 already
has status `"accepted"`, yet the respond handler (caller bob, the addressee)
succeeds with 200 and updates the row to `"declined"` — a non-pending row is
updated again, performing an accepted→declined transition. -/
theorem respondFriendRequest_nonpending_counterexample :
    (getFriendRequest storeA 1).map Friend.status = some "accepted" ∧
    (respondFriendRequest storeA 2 "bob" 1 "declined").1 = 200 ∧
    (getFriendRequest (respondFriendRequest storeA 2 "bob" 1 "declined").2 1).map Friend.status
      = some "declined" := by decide

/-- C2 (amended): the respond handler changes a request's status to the
submitted `accepted`/`declined` value whenever the row exists and the caller
is its addressee, regardless of the row's current status — rows already
accepted or declined can be updated again. -/
theorem respondFriendRequest_updates_regardless (s : Store) (callerId : Nat)
    (callerName : String) (requestId : Nat) (status : String)
    (hstatus : status = "accepted" ∨ status = "declined")
    (f : Friend) (hf : getFriendRequest s requestId = some f)
    (haddr : f.addresseeId = callerId) :
    (respondFriendRequest s callerId callerName requestId status).1 = 200 ∧
    (respondFriendRequest s callerId callerName requestId status).2.friends
      = s.friends.map fun fr => if fr.id == requestId then { fr with status := status } else fr := by
  have hcond : (status != "accepted" && status != "declined") = false := by
    rcases hstatus with h | h <;> simp [h]
  have haddr2 : (f.addresseeId != callerId) = false := by simp [haddr]
  unfold respondFriendRequest
  rw [hcond, hf]
  simp only [Bool.false_eq_true, if_false, haddr2]
  exact ⟨trivial, rfl⟩

/-- Witness for the amended C2 at the concrete store: the accepted row is
updated to declined. -/
theorem respondFriendRequest_updates_regardless_witness :
    (respondFriendRequest storeA 2 "bob" 1 "declined").1 = 200 ∧
    (respondFriendRequest storeA 2 "bob" 1 "declined").2.friends
      = storeA.friends.map fun fr => if fr.id == 1 then { fr with status := "declined" } else fr :=
  respondFriendRequest_updates_regardless storeA 2 "bob" 1 "declined" (Or.inr rfl)
    { id := 1, requesterId := 1, addresseeId := 2, status := "accepted", createdAt := 0 }
    (by decide) rfl

/-! ### C4: sending a friend request -/

/-- C4: `POST /api/friends/request` returns 400 and leaves the store
untouched (no friendship row, no notification) on a self-request or when a
friendship row already exists for the unordered pair in any status;
otherwise it answers 201 and appends exactly the new pending row. -/
theorem sendFriendRequest_spec (s : Store) (r : Nat) (rname : String) (a : Nat) :
    ((r = a ∨ ∃ f ∈ s.friends,
        (f.requesterId = r ∧ f.addresseeId = a) ∨ (f.requesterId = a ∧ f.addresseeId = r)) →
      sendFriendRequest s r rname a = (400, s)) ∧
    ((r ≠ a ∧ ∀ f ∈ s.friends,
        ¬((f.requesterId = r ∧ f.addresseeId = a) ∨ (f.requesterId = a ∧ f.addresseeId = r))) →
      (sendFriendRequest s r rname a).1 = 201 ∧
      (sendFriendRequest s r rname a).2.friends = s.friends ++
        [{ id := s.nextFriendId, requesterId := r, addresseeId := a
           status := "pending", createdAt := s.now }]) := by
  constructor
  · rintro (heq | ⟨f, hf, hor⟩)
    · unfold sendFriendRequest
      simp [heq]
    · by_cases heq : r = a
      · unfold sendFriendRequest
        simp [heq]
      · have h1 : (r == a) = false := by simp [heq]
        have h2 : ∃ x, getFriendship s r a = some x := by
          rw [← Option.isSome_iff_exists]
          unfold getFriendship
          refine List.find?_isSome.mpr ⟨f, hf, ?_⟩
          rcases hor with ⟨hr, ha⟩ | ⟨hr, ha⟩ <;> simp [hr, ha]
        obtain ⟨x, hx⟩ := h2
        unfold sendFriendRequest
        rw [h1, hx]
        simp
  · rintro ⟨hne, hall⟩
    have h1 : (r == a) = false := by simp [hne]
    have h2 : getFriendship s r a = none := by
      unfold getFriendship
      refine List.find?_eq_none.mpr fun f hf => ?_
      have hnf := hall f hf
      simp only [Bool.or_eq_true, Bool.and_eq_true, beq_iff_eq, not_or, not_and] at hnf ⊢
      push_neg at hnf
      exact ⟨fun hr => hnf.1 hr, fun hr => hnf.2 hr⟩
    unfold sendFriendRequest
    rw [h1, h2]
    exact ⟨rfl, rfl⟩

/-- Witness for C4 at concrete inputs: both a duplicate request (alice→bob
already has a row) and a fresh request (alice→carol). -/
theorem sendFriendRequest_spec_witness :
    (sendFriendRequest storeA 1 "alice" 2 = (400, storeA)) ∧
    ((sendFriendRequest storeA 1 "alice" 3).1 = 201 ∧
      (sendFriendRequest storeA 1 "alice" 3).2.friends = storeA.friends ++
        [{ id := storeA.nextFriendId, requesterId := 1, addresseeId := 3
           status := "pending", createdAt := storeA.now }]) :=
  ⟨(sendFriendRequest_spec storeA 1 "alice" 2).1
      (Or.inr ⟨{ id := 1, requesterId := 1, addresseeId := 2, status := "accepted", createdAt := 0 },
        by decide, Or.inl ⟨rfl, rfl⟩⟩),
   (sendFriendRequest_spec storeA 1 "alice" 3).2 ⟨by decide, by decide⟩⟩

/-! ### C9: notification decoration is opportunistic and error-free -/

theorem lookupIfTruthy_isSome_imp {β : Type} (v : Option Nat) (f : Nat → Option β)
    (h : (lookupIfTruthy v f).isSome = true) : v ≠ none := by
  cases v
  · simp [lookupIfTruthy] at h
  · simp

theorem lookupIfTruthy_none_of {β : Type} (k : Nat) (f : Nat → Option β) (hf : f k = none) :
    lookupIfTruthy (some k) f = none := by
  simp only [lookupIfTruthy]
  split <;> simp [hf]

/-- C9: `getUserNotifications` returns one composite per notification row of
the user (no row is dropped and no error is raised), attaches sender, group,
and image only when the corresponding foreign key is non-null, and leaves
the field absent when the referenced row has been deleted, still returning
the rest of the composite. -/
theorem getUserNotifications_details (s : Store) (u : Nat) :
    (getUserNotifications s u).length
      = (s.notifications.filter fun n => n.userId == u).length ∧
    ∀ d ∈ getUserNotifications s u,
      d.notification.userId = u ∧
      (d.sender.isSome = true → d.notification.senderId ≠ none) ∧
      (d.group.isSome = true → d.notification.groupId ≠ none) ∧
      (d.image.isSome = true → d.notification.imageId ≠ none) ∧
      (∀ sid, d.notification.senderId = some sid →
        (∀ usr ∈ s.users, usr.id ≠ sid) → d.sender = none) ∧
      (∀ gid, d.notification.groupId = some gid →
        (∀ g ∈ s.groups, g.id ≠ gid) → d.group = none) ∧
      (∀ iid, d.notification.imageId = some iid →
        (∀ im ∈ s.images, im.id ≠ iid) → d.image = none) := by
  constructor
  · unfold getUserNotifications
    rw [List.length_map, List.length_insertionSort]
  · intro d hd
    unfold getUserNotifications at hd
    rw [List.mem_map] at hd
    obtain ⟨n, hn, rfl⟩ := hd
    rw [List.mem_insertionSort] at hn
    have hu : n.userId = u := by simpa using (List.mem_filter.mp hn).2
    refine ⟨hu, fun h => lookupIfTruthy_isSome_imp _ _ h,
      fun h => lookupIfTruthy_isSome_imp _ _ h,
      fun h => lookupIfTruthy_isSome_imp _ _ h, ?_, ?_, ?_⟩
    · intro sid hsid hnone
      show lookupIfTruthy n.senderId (fun k => getUser s k) = none
      rw [hsid]
      refine lookupIfTruthy_none_of _ _ ?_
      exact List.find?_eq_none.mpr fun usr husr => by simpa using hnone usr husr
    · intro gid hgid hnone
      show lookupIfTruthy n.groupId (fun k => getGroupCaught s k) = none
      rw [hgid]
      refine lookupIfTruthy_none_of _ _ ?_
      unfold getGroupCaught getGroupE
      rw [List.find?_eq_none.mpr fun g hg => by simpa using hnone g hg]
      rfl
    · intro iid hiid hnone
      show lookupIfTruthy n.imageId (fun k => getImage s k) = none
      rw [hiid]
      refine lookupIfTruthy_none_of _ _ ?_
      exact List.find?_eq_none.mpr fun im him => by simpa using hnone im him

/-- Witness for C9 at the concrete store: user 1 holds a notification whose
sender, group, and image references all dangle. -/
theorem getUserNotifications_details_witness :
    (getUserNotifications storeA 1).length
      = (storeA.notifications.filter fun n => n.userId == 1).length ∧
    ∀ d ∈ getUserNotifications storeA 1,
      d.notification.userId = 1 ∧
      (d.sender.isSome = true → d.notification.senderId ≠ none) ∧
      (d.group.isSome = true → d.notification.groupId ≠ none) ∧
      (d.image.isSome = true → d.notification.imageId ≠ none) ∧
      (∀ sid, d.notification.senderId = some sid →
        (∀ usr ∈ storeA.users, usr.id ≠ sid) → d.sender = none) ∧
      (∀ gid, d.notification.groupId = some gid →
        (∀ g ∈ storeA.groups, g.id ≠ gid) → d.group = none) ∧
      (∀ iid, d.notification.imageId = some iid →
        (∀ im ∈ storeA.images, im.id ≠ iid) → d.image = none) :=
  getUserNotifications_details storeA 1

/-! ### C7: month-window image query -/

theorem daysFromCivil_pos (yr mo : Nat) (h1 : 1970 ≤ yr) (h2 : 1 ≤ mo) (h3 : mo ≤ 12)
    (h4 : 1971 ≤ yr ∨ 2 ≤ mo) : 1 ≤ daysFromCivil yr mo 1 := by
  simp only [daysFromCivil]
  split_ifs <;> omega

/-- C7: `getUserImagesByDate(u, y, m)` (server timezone UTC, `y ≥ 1970`,
zero-indexed `m ≤ 11`) returns exactly the user's images whose `uploadedAt`
lies in the half-open interval from the first instant of the month to the
first instant of the next month, ordered most recent first: any instant of
the month is included and the first instant of the following month is
excluded. -/
theorem getUserImagesByDate_spec (s : Store) (u y m : Nat)
    (hy : 1970 ≤ y) (hm : m ≤ 11) :
    (∀ img, img ∈ getUserImagesByDate s u y m ↔
      (img ∈ s.images ∧ img.userId = u ∧
       jsMonthStartMs y m ≤ img.uploadedAt ∧
       img.uploadedAt < jsMonthStartMs y (m + 1))) ∧
    List.Sorted newerFirst (getUserImagesByDate s u y m) := by
  have hB : 1 ≤ daysFromCivil (y + (m + 1) / 12) ((m + 1) % 12 + 1) 1 :=
    daysFromCivil_pos _ _ (by omega) (by omega) (by omega) (by omega)
  have key : ∀ ts : Nat,
      (jsMonthStartMs y m / 1000 ≤ ts / 1000 ∧
        ts / 1000 ≤ (jsMonthStartMs y (m + 1) - 1) / 1000) ↔
      (jsMonthStartMs y m ≤ ts ∧ ts < jsMonthStartMs y (m + 1)) := by
    intro ts
    unfold jsMonthStartMs
    generalize daysFromCivil (y + m / 12) (m % 12 + 1) 1 = A
    generalize hgen : daysFromCivil (y + (m + 1) / 12) ((m + 1) % 12 + 1) 1 = B
    rw [hgen] at hB
    omega
  constructor
  · intro img
    simp only [getUserImagesByDate, List.mem_insertionSort, List.mem_filter,
      Bool.and_eq_true, beq_iff_eq, decide_eq_true_eq]
    constructor
    · rintro ⟨him, ⟨hu, hlo⟩, hhi⟩
      obtain ⟨h1, h2⟩ := (key img.uploadedAt).mp ⟨hlo, hhi⟩
      exact ⟨him, hu, h1, h2⟩
    · rintro ⟨him, hu, hlo, hhi⟩
      obtain ⟨h1, h2⟩ := (key img.uploadedAt).mpr ⟨hlo, hhi⟩
      exact ⟨him, ⟨hu, h1⟩, h2⟩
  · exact List.sorted_insertionSort newerFirst _

/-- Witness for C7 at the concrete store: January 2023 contains exactly the
stored image. -/
theorem getUserImagesByDate_spec_witness :
    (∀ img, img ∈ getUserImagesByDate storeA 1 2023 0 ↔
      (img ∈ storeA.images ∧ img.userId = 1 ∧
       jsMonthStartMs 2023 0 ≤ img.uploadedAt ∧
       img.uploadedAt < jsMonthStartMs 2023 1)) ∧
    List.Sorted newerFirst (getUserImagesByDate storeA 1 2023 0) :=
  getUserImagesByDate_spec storeA 1 2023 0 (by norm_num) (by norm_num)

/-! ### C6: distinct month buckets, strictly descending, zero-indexed -/

theorem ymOfMs_month_pos (ts : Nat) : 1 ≤ (ymOfMs ts).2 := by
  simp only [ymOfMs, civilFromDays]
  split_ifs <;> omega

/-- C6: `getUserImageDates` returns pairwise-distinct `(year, month)` pairs
in strictly descending `(year, month)` order with zero-indexed months: a
pair `(y, m)` appears exactly when the user owns an image whose UTC civil
month is the 1-indexed `(y, m + 1)`. -/
theorem getUserImageDates_spec (s : Store) (u : Nat) :
    List.Pairwise (fun a b : Nat × Nat => b.1 < a.1 ∨ (a.1 = b.1 ∧ b.2 < a.2))
      (getUserImageDates s u) ∧
    (getUserImageDates s u).Nodup ∧
    ∀ p : Nat × Nat, p ∈ getUserImageDates s u ↔
      ∃ img ∈ s.images, img.userId = u ∧ ymOfMs img.uploadedAt = (p.1, p.2 + 1) := by
  set keys := ((s.images.filter fun i => i.userId == u).map fun i => ymOfMs i.uploadedAt).dedup
    with hkeys
  set sorted := List.insertionSort ymDesc keys with hsorted
  have hout : getUserImageDates s u = sorted.map fun p => (p.1, p.2 - 1) := rfl
  have hperm : sorted.Perm keys := List.perm_insertionSort ymDesc keys
  have hnodupKeys : keys.Nodup := List.nodup_dedup _
  have hnodupSorted : sorted.Nodup := hperm.nodup_iff.mpr hnodupKeys
  have hsort : List.Sorted ymDesc sorted := List.sorted_insertionSort ymDesc keys
  have hmonth : ∀ p ∈ sorted, 1 ≤ p.2 := by
    intro p hp
    have hk : p ∈ keys := hperm.mem_iff.mp hp
    simp only [hkeys, List.mem_dedup, List.mem_map] at hk
    obtain ⟨img, _, rfl⟩ := hk
    exact ymOfMs_month_pos _
  have hstrict : List.Pairwise (fun a b : Nat × Nat => b.1 < a.1 ∨ (a.1 = b.1 ∧ b.2 < a.2))
      sorted := by
    refine (hsort.and hnodupSorted).imp ?_
    rintro a b ⟨hge, hne⟩
    rcases hge with h | ⟨h1, h2⟩
    · exact Or.inl h
    · refine Or.inr ⟨h1, ?_⟩
      rcases Nat.lt_or_ge b.2 a.2 with h3 | h3
      · exact h3
      · exact absurd (Prod.ext h1.symm (Nat.le_antisymm h2 h3)).symm hne
  have houtPW : List.Pairwise (fun a b : Nat × Nat => b.1 < a.1 ∨ (a.1 = b.1 ∧ b.2 < a.2))
      (getUserImageDates s u) := by
    rw [hout, List.pairwise_map]
    refine List.Pairwise.imp_of_mem ?_ hstrict
    intro a b ha hb hab
    rcases hab with h | ⟨h1, h2⟩
    · exact Or.inl h
    · have := hmonth b hb
      exact Or.inr ⟨h1, by omega⟩
  have houtND : (getUserImageDates s u).Nodup := by
    refine houtPW.imp ?_
    intro a b hab hc
    subst hc
    rcases hab with h | ⟨h1, h2⟩ <;> omega
  refine ⟨houtPW, houtND, ?_⟩
  · intro p
    rw [hout, List.mem_map]
    constructor
    · rintro ⟨q, hq, rfl⟩
      have hq1 : 1 ≤ q.2 := hmonth q hq
      have hk : q ∈ keys := hperm.mem_iff.mp hq
      simp only [hkeys, List.mem_dedup, List.mem_map] at hk
      obtain ⟨img, himg, hym⟩ := hk
      have hfil := List.mem_filter.mp himg
      refine ⟨img, hfil.1, by simpa using hfil.2, ?_⟩
      rw [hym]
      exact (Prod.ext_iff.mpr ⟨by simp, by simp; omega⟩).symm
    · rintro ⟨img, himg, hu, hym⟩
      refine ⟨(p.1, p.2 + 1), ?_, ?_⟩
      · rw [hperm.mem_iff]
        simp only [hkeys, List.mem_dedup, List.mem_map]
        exact ⟨img, List.mem_filter.mpr ⟨himg, by simpa using hu⟩, hym⟩
      · exact Prod.ext_iff.mpr ⟨by simp, by simp⟩

/-- Witness for C6 at the concrete store. -/
theorem getUserImageDates_spec_witness :
    List.Pairwise (fun a b : Nat × Nat => b.1 < a.1 ∨ (a.1 = b.1 ∧ b.2 < a.2))
      (getUserImageDates storeA 1) ∧
    (getUserImageDates storeA 1).Nodup ∧
    ∀ p : Nat × Nat, p ∈ getUserImageDates storeA 1 ↔
      ∃ img ∈ storeA.images, img.userId = 1 ∧ ymOfMs img.uploadedAt = (p.1, p.2 + 1) :=
  getUserImageDates_spec storeA 1

/-! ### C5: group-share notifications -/

theorem notifyGroupMembers_countP (uid : Nat) (uname : String) (imgId gId : Nat)
    (gName : String) (q : Notification → Bool) (r : User → Bool)
    (hq : ∀ (mem : User) (k now : Nat),
      q { id := k, userId := mem.id, type := "image_share"
          content := uname ++ " shared an image in " ++ gName
          senderId := some uid, groupId := some gId, imageId := some imgId
          isRead := false, createdAt := now } = r mem)
    (members : List User) :
    ∀ s : Store,
      (notifyGroupMembers members uid uname imgId gId gName s).notifications.countP q
        = s.notifications.countP q + (members.filter fun mem => mem.id != uid).countP r := by
  induction members with
  | nil => intro s; simp [notifyGroupMembers]
  | cons mem rest ih =>
    intro s
    have hstep : notifyGroupMembers (mem :: rest) uid uname imgId gId gName s
        = notifyGroupMembers rest uid uname imgId gId gName
            (if mem.id != uid then
              createNotification s
                { userId := mem.id, type := "image_share"
                  content := uname ++ " shared an image in " ++ gName
                  senderId := some uid, imageId := some imgId, groupId := some gId }
             else s) := by
      simp only [notifyGroupMembers, List.foldl_cons]
    rw [hstep]
    by_cases hmem : (mem.id != uid) = true
    · rw [if_pos hmem, ih]
      have hfil : (mem :: rest).filter (fun m => m.id != uid)
          = mem :: rest.filter (fun m => m.id != uid) := by
        simp [List.filter_cons, hmem]
      rw [hfil, List.countP_cons]
      have hrow : (createNotification s
          { userId := mem.id, type := "image_share"
            content := uname ++ " shared an image in " ++ gName
            senderId := some uid, imageId := some imgId, groupId := some gId
            : InsertNotification }).notifications
          = s.notifications ++
            [{ id := s.nextNotificationId, userId := mem.id, type := "image_share"
               content := uname ++ " shared an image in " ++ gName
               senderId := some uid, groupId := some gId, imageId := some imgId
               isRead := false, createdAt := s.now }] := rfl
      rw [hrow, List.countP_append, List.countP_cons, List.countP_nil]
      rw [hq mem s.nextNotificationId s.now]
      omega
    · rw [if_neg hmem, ih]
      have hmem' : (mem.id != uid) = false := by
        revert hmem; cases (mem.id != uid) <;> simp
      have hfil : (mem :: rest).filter (fun m => m.id != uid)
          = rest.filter (fun m => m.id != uid) := by
        simp [List.filter_cons, hmem']
      rw [hfil]

theorem getGroupMembers_ids_nodup (s : Store) (gId : Nat)
    (h : (s.users.map User.id).Nodup) :
    ((getGroupMembers s gId).map User.id).Nodup := by
  simp only [getGroupMembers]
  split_ifs with hc
  · simp
  · exact h.sublist ((List.filter_sublist _).map _)

/-- C5: sharing an uploaded image with a group (whose row exists, over a
store with distinct user ids) creates exactly one `image_share` notification
for every current member of the group other than the uploader, none for the
uploader, and — when the uploader is one of the members — exactly
`members - 1` notifications in total. -/
theorem shareImageWithGroup_notifications (s : Store) (uid : Nat) (uname : String)
    (imgId gId : Nat) (g : Group)
    (hg : getGroupE s gId = Except.ok g)
    (hnodup : (s.users.map User.id).Nodup) :
    ∃ s', shareImageWithGroup s uid uname imgId gId = Except.ok s' ∧
      (∀ usr ∈ getGroupMembers s gId, usr.id ≠ uid →
        s'.notifications.countP (fun n => n.userId == usr.id && n.type == "image_share")
          = s.notifications.countP (fun n => n.userId == usr.id && n.type == "image_share") + 1) ∧
      (s'.notifications.countP (fun n => n.userId == uid)
        = s.notifications.countP (fun n => n.userId == uid)) ∧
      ((∃ usr ∈ getGroupMembers s gId, usr.id = uid) →
        s'.notifications.length + 1 = s.notifications.length + (getGroupMembers s gId).length) := by
  have hg1 : getGroupE (shareImage s imgId none (some gId)) gId = Except.ok g := hg
  have hnotif1 : (shareImage s imgId none (some gId)).notifications = s.notifications := rfl
  have hmem1 : getGroupMembers (shareImage s imgId none (some gId)) gId
      = getGroupMembers s gId := rfl
  refine ⟨notifyGroupMembers (getGroupMembers s gId) uid uname imgId gId g.name
      (shareImage s imgId none (some gId)), ?_, ?_, ?_, ?_⟩
  · simp only [shareImageWithGroup]
    rw [hg1]
    rfl
  · intro usr husr hneq
    have hq : ∀ (mem : User) (k now : Nat),
        ((fun n : Notification => n.userId == usr.id && n.type == "image_share")
          { id := k, userId := mem.id, type := "image_share"
            content := uname ++ " shared an image in " ++ g.name
            senderId := some uid, groupId := some gId, imageId := some imgId
            isRead := false, createdAt := now })
        = (fun mem : User => mem.id == usr.id) mem := by
      intro mem k now
      simp
    rw [notifyGroupMembers_countP uid uname imgId gId g.name _ _ hq
      (getGroupMembers s gId) (shareImage s imgId none (some gId)), hnotif1]
    have hone : ((getGroupMembers s gId).filter fun mem => mem.id != uid).countP
        (fun mem => mem.id == usr.id) = 1 := by
      have husr' : usr ∈ (getGroupMembers s gId).filter fun mem => mem.id != uid :=
        List.mem_filter.mpr ⟨husr, by simp [hneq]⟩
      have hnd : ((((getGroupMembers s gId).filter fun mem => mem.id != uid).map User.id)).Nodup :=
        (getGroupMembers_ids_nodup s gId hnodup).sublist ((List.filter_sublist _).map _)
      have hcast : (((getGroupMembers s gId).filter fun mem => mem.id != uid).countP
          fun mem => mem.id == usr.id)
          = ((((getGroupMembers s gId).filter fun mem => mem.id != uid).map User.id).count usr.id) := by
        rw [List.count_eq_countP, List.countP_map]
        rfl
      rw [hcast]
      exact List.count_eq_one_of_mem hnd (List.mem_map.mpr ⟨usr, husr', rfl⟩)
    omega
  · have hq : ∀ (mem : User) (k now : Nat),
        ((fun n : Notification => n.userId == uid)
          { id := k, userId := mem.id, type := "image_share"
            content := uname ++ " shared an image in " ++ g.name
            senderId := some uid, groupId := some gId, imageId := some imgId
            isRead := false, createdAt := now })
        = (fun mem : User => mem.id == uid) mem := by
      intro mem k now
      rfl
    rw [notifyGroupMembers_countP uid uname imgId gId g.name _ _ hq
      (getGroupMembers s gId) (shareImage s imgId none (some gId)), hnotif1]
    have hzero : ((getGroupMembers s gId).filter fun mem => mem.id != uid).countP
        (fun mem => mem.id == uid) = 0 := by
      refine List.countP_eq_zero.mpr fun mem hmem => ?_
      have := (List.mem_filter.mp hmem).2
      simp only [bne_iff_ne, ne_eq] at this
      simp [this]
    omega
  · intro ⟨usr, husr, huid⟩
    have hq : ∀ (mem : User) (k now : Nat),
        ((fun _ : Notification => true)
          { id := k, userId := mem.id, type := "image_share"
            content := uname ++ " shared an image in " ++ g.name
            senderId := some uid, groupId := some gId, imageId := some imgId
            isRead := false, createdAt := now })
        = (fun _ : User => true) mem := by
      intro mem k now
      rfl
    have hlen := notifyGroupMembers_countP uid uname imgId gId g.name
      (fun _ => true) (fun _ => true) hq
      (getGroupMembers s gId) (shareImage s imgId none (some gId))
    rw [hnotif1, List.countP_true, List.countP_true] at hlen
    rw [hlen]
    have hsplit := List.length_eq_countP_add_countP (fun mem => mem.id != uid)
      (getGroupMembers s gId)
    have hcongr : (getGroupMembers s gId).countP (fun a => decide ¬((a.id != uid) = true))
        = (getGroupMembers s gId).countP (fun a => a.id == uid) := by
      refine List.countP_congr fun x _ => ?_
      constructor
      · intro hx
        simp only [decide_eq_true_eq, bne_iff_ne, ne_eq, not_not] at hx
        simp [hx]
      · intro hx
        simp only [beq_iff_eq] at hx
        simp [hx]
    have huidcount : (getGroupMembers s gId).countP (fun a => a.id == uid) = 1 := by
      have hcast : ((getGroupMembers s gId).countP fun a => a.id == uid)
          = (((getGroupMembers s gId).map User.id).count uid) := by
        rw [List.count_eq_countP, List.countP_map]
        rfl
      rw [hcast]
      exact List.count_eq_one_of_mem (getGroupMembers_ids_nodup s gId hnodup)
        (List.mem_map.mpr ⟨usr, husr, huid⟩)
    have hfl : ((getGroupMembers s gId).filter fun mem => mem.id != uid).length
        = (getGroupMembers s gId).countP fun mem => mem.id != uid := by
      rw [List.countP_eq_length_filter]
    omega

/-- Witness for C5 at the concrete store: alice shares image 1 with group 1
(members alice and bob); bob gets exactly one `image_share` notification,
alice none, and one notification is created in total. -/
theorem shareImageWithGroup_notifications_witness :
    ∃ s', shareImageWithGroup storeA 1 "alice" 1 1 = Except.ok s' ∧
      (∀ usr ∈ getGroupMembers storeA 1, usr.id ≠ 1 →
        s'.notifications.countP (fun n => n.userId == usr.id && n.type == "image_share")
          = storeA.notifications.countP (fun n => n.userId == usr.id && n.type == "image_share") + 1) ∧
      (s'.notifications.countP (fun n => n.userId == 1)
        = storeA.notifications.countP (fun n => n.userId == 1)) ∧
      ((∃ usr ∈ getGroupMembers storeA 1, usr.id = 1) →
        s'.notifications.length + 1 = storeA.notifications.length + (getGroupMembers storeA 1).length) :=
  shareImageWithGroup_notifications storeA 1 "alice" 1 1
    { id := 1, name := "hikers", description := none, createdBy := 1, createdAt := 0 }
    rfl (by decide)

end Memorify
